import Mathlib

/-!
Verification of the KeyCRM → Rozetka XML feed generator (`src/main.py`).

The development shallowly embeds the pipeline of `main.py`:
`safe_request` / `fetch_products` / `fetch_offers_for_product` (paginated
retrieval with retry), `extract_color_and_size`, `add_color_size_params`,
and the offer-assembly loop of the `rozetka_feed` view.

Upstream JSON values are modelled by `JVal` (numbers as exact rationals).
Modelling notes, stated once here:
* `str()` renderings of numbers are produced by an explicit digit writer;
  renderings of lists/dicts are fixed non-empty placeholder strings — only
  their truthiness/non-emptiness and their being distinct from attribute
  names is relied upon.
* `float()` string parsing accepts optional sign, decimal digits and one
  decimal point (exponents and `inf`/`nan` spellings are not modelled).
* `f"{x:.2f}"` is modelled by exact round-half-even on rationals.
* `str.lower()` is modelled for ASCII and the Cyrillic letters used by the
  colour/size synonym lists.
* Comparisons between container values are modelled as type errors.
* `.get`/`.keys` on a non-dict raises in Python; records threaded through
  the assembler are therefore represented by association lists, and record
  unwrapping (`'attributes' in product` / `'data'` nesting) returns `none`
  exactly where Python raises.
-/

/-- A Python/JSON value as returned by the upstream API. -/
inductive JVal where
  | jnull
  | jbool (b : Bool)
  | jnum (q : Rat)
  | jstr (s : String)
  | jarr (xs : List JVal)
  | jobj (fields : List (String × JVal))
deriving Inhabited

/-- Python truthiness: `None`, `False`, `0`, `""`, `[]`, `{}` are falsy. -/
def isTruthy : JVal → Bool
  | .jnull => false
  | .jbool b => b
  | .jnum q => decide (q ≠ 0)
  | .jstr s => decide (s ≠ "")
  | .jarr xs => !xs.isEmpty
  | .jobj fs => !fs.isEmpty

/-- Attribute record: a Python dict of JSON values. -/
abbrev Attrs := List (String × JVal)

/-- `d.get(k)` (default `None`). -/
def getJ (fs : Attrs) (k : String) : JVal := (fs.lookup k).getD .jnull

/-- `d.get(k, dflt)`. -/
def getD (fs : Attrs) (k : String) (dflt : JVal) : JVal := (fs.lookup k).getD dflt

/-- Python `a or b`: the first operand if truthy, else the second. -/
def pyOr (a b : JVal) : JVal := if isTruthy a then a else b

/-- Python `a or b or ... or z` over a non-empty list: the first truthy
operand, else the last operand.  `pyOrList [] = None`. -/
def pyOrList : List JVal → JVal
  | [] => .jnull
  | [v] => v
  | v :: rest => if isTruthy v then v else pyOrList rest

/-- Overwrite field `k` with value `v` (Python `d[k] = v`). -/
def setF (fs : Attrs) (k : String) (v : JVal) : Attrs :=
  (k, v) :: fs.filter (fun p => p.1 ≠ k)

/-- Remove field `k` (Python `del d[k]` / the key being absent). -/
def removeF (fs : Attrs) (k : String) : Attrs :=
  fs.filter (fun p => p.1 ≠ k)

/-- Decimal digit characters of a natural number, most significant first
(`fuel`-driven; `fuel ≥ n` suffices). -/
def natDigitsAux : Nat → Nat → List Char → List Char
  | 0, _, acc => acc
  | _ + 1, 0, acc => acc
  | f + 1, n + 1, acc =>
      natDigitsAux f ((n + 1) / 10) (Nat.digitChar ((n + 1) % 10) :: acc)

/-- Decimal representation of a natural number, at least one digit. -/
def natDigitsList (n : Nat) : List Char :=
  if n = 0 then ['0'] else natDigitsAux (n + 1) n []

/-- `str()` of a Python int. -/
def intRepr (i : Int) : String :=
  ⟨(if i < 0 then ['-'] else []) ++ natDigitsList i.natAbs⟩

/-- `str()` of a Python value (numeric and container renderings simplified,
see the header note). -/
def pyStr : JVal → String
  | .jnull => "None"
  | .jbool true => "True"
  | .jbool false => "False"
  | .jnum q =>
      ⟨(if q.num < 0 then ['-'] else []) ++ natDigitsList q.num.natAbs ++
        (if q.den = 1 then [] else '/' :: natDigitsList q.den)⟩
  | .jstr s => s
  | .jarr _ => "[...]"
  | .jobj _ => "\x7b...\x7d"

/-- `str.strip()` on the character list (ASCII whitespace). -/
def charStrip (l : List Char) : List Char :=
  ((l.dropWhile Char.isWhitespace).reverse.dropWhile Char.isWhitespace).reverse

/-- `s.strip()`. -/
def pyStrip (s : String) : String := ⟨charStrip s.data⟩

/-- `safe_text` from `main.py`: `""` for `None`, else `str(x).strip()`. -/
def safeText (v : JVal) : String :=
  match v with
  | .jnull => ""
  | v => pyStrip (pyStr v)

/-- `str.lower()` for ASCII letters and the Cyrillic letters appearing in
the colour/size synonym lists. -/
def pyLowerChar (c : Char) : Char :=
  if 65 ≤ c.toNat ∧ c.toNat ≤ 90 then Char.ofNat (c.toNat + 32)
  else if 0x410 ≤ c.toNat ∧ c.toNat ≤ 0x42F then Char.ofNat (c.toNat + 32)
  else if c.toNat = 0x406 then Char.ofNat 0x456
  else if c.toNat = 0x407 then Char.ofNat 0x457
  else if c.toNat = 0x404 then Char.ofNat 0x454
  else if c.toNat = 0x490 then Char.ofNat 0x491
  else c

/-- `s.lower()`. -/
def pyLower (s : String) : String := ⟨s.data.map pyLowerChar⟩

/-- `subOfList needle hay`: `needle` occurs as a contiguous sublist of
`hay`. -/
def subOfList (needle : List Char) : List Char → Bool
  | [] => needle.isEmpty
  | c :: rest => needle.isPrefixOf (c :: rest) || subOfList needle rest

/-- Python `needle in hay` on strings (substring test). -/
def isSubstr (needle hay : String) : Bool := subOfList needle.data hay.data

/-- Numeric value of a list of decimal digit characters. -/
def digitsVal (l : List Char) : Nat :=
  l.foldl (fun a c => a * 10 + (c.toNat - 48)) 0

/-- `float(s)` on a string: optional surrounding whitespace, optional sign,
decimal digits with at most one point (header note lists the spellings not
modelled). -/
def parseFloatStr (s : String) : Option Rat :=
  let l := charStrip s.data
  let sgn : Rat := if l.head? = some '-' then -1 else 1
  let r := if l.head? = some '-' ∨ l.head? = some '+' then l.tail else l
  let ip := r.takeWhile Char.isDigit
  let rest := r.dropWhile Char.isDigit
  match rest with
  | [] => if ip.isEmpty then none else some (sgn * (digitsVal ip : Rat))
  | '.' :: fr =>
      if fr.all Char.isDigit ∧ ¬(ip.isEmpty ∧ fr.isEmpty) then
        some (sgn * ((digitsVal ip : Rat) +
          (digitsVal fr : Rat) / ((10 : Rat) ^ fr.length)))
      else none
  | _ => none

/-- `int(s)` on a string: optional whitespace and sign, decimal digits only. -/
def parseIntStr (s : String) : Option Int :=
  let l := charStrip s.data
  let neg := l.head? = some '-'
  let r := if l.head? = some '-' ∨ l.head? = some '+' then l.tail else l
  if ¬r.isEmpty ∧ r.all Char.isDigit then
    some (if neg then -(digitsVal r : Int) else (digitsVal r : Int))
  else none

/-- `float(x)`: `none` models `ValueError`/`TypeError`. -/
def pyFloat : JVal → Option Rat
  | .jnum q => some q
  | .jbool b => some (if b then 1 else 0)
  | .jstr s => parseFloatStr s
  | _ => none

/-- `int(x)` (the strict form used on `product_stock`): truncates numbers,
parses integer-literal strings, rejects everything else. -/
def pyIntStrict : JVal → Option Int
  | .jnum q => some (q.num.tdiv (q.den : Int))
  | .jbool b => some (if b then 1 else 0)
  | .jstr s => parseIntStr s
  | _ => none

/-- Truncation toward zero, as Python `int(float(x))`. -/
def ratTrunc (q : Rat) : Int := q.num.tdiv (q.den : Int)

/-- Floor of a rational. -/
def ratFloor (q : Rat) : Int := q.num.fdiv (q.den : Int)

/-- Round half to even (the rounding of `f"{x:.2f}"`, taken on exact
rationals; see the header note). -/
def roundHalfEven (q : Rat) : Int :=
  let f := ratFloor q
  let r := q - (f : Rat)
  if r < (1 : Rat) / 2 then f
  else if (1 : Rat) / 2 < r then f + 1
  else if f % 2 = 0 then f else f + 1

/-- `f"{x:.2f}"`: sign, integer digits, a point, exactly two fraction
digits. -/
def fmt2 (q : Rat) : String :=
  let n := roundHalfEven (q * 100)
  let m := n.natAbs
  ⟨(if n < 0 then ['-'] else []) ++ natDigitsList (m / 100) ++
    ['.'] ++ [Nat.digitChar (m / 10 % 10), Nat.digitChar (m % 10)]⟩

/-- The string has exactly two decimal-digit characters after its last
`'.'`: its last two characters are digits and the one before them is the
point. -/
def twoDecimalFmt (s : String) : Bool :=
  match s.data.reverse with
  | c2 :: c1 :: c0 :: _ => c0 == '.' && c1.isDigit && c2.isDigit
  | _ => false

/-- Candidate keys for the variant SKU (lines 359–362 of `main.py`). -/
def skuKeys : List String := ["sku", "article", "code", "vendor_code"]

/-- Candidate keys for the variant stock (lines 370–374). -/
def stockKeys : List String := ["stock", "quantity", "available_quantity",
  "balance", "остаток"]

/-- Candidate keys for the variant price (lines 390–395). -/
def priceKeys : List String := ["price", "selling_price", "sale_price",
  "retail_price", "розничная_цена", "цена"]

/-- The `or`-chain over a record's candidate keys. -/
def chainGet (va : Attrs) (keys : List String) : JVal :=
  pyOrList (keys.map (getJ va))

/-- The first candidate key whose value is truthy, if any. -/
def firstTruthyChain (keys : List String) (va : Attrs) : Option JVal :=
  (keys.map (getJ va)).find? isTruthy

/-- Variant stock resolution (lines 370–379): `or`-chain ending in `0`,
then `int(float(·))` with `0` on conversion failure. -/
def resolvedStock (va : Attrs) : Int :=
  let v := pyOrList (stockKeys.map (getJ va) ++ [.jnum 0])
  match pyFloat v with
  | some q => ratTrunc q
  | none => 0

/-- Variant price resolution (lines 390–401): `or`-chain through the price
keys, then the product-level price, then `0`; `float(·)` with `0.0` on
conversion failure. -/
def resolvedPrice (va : Attrs) (productPrice : JVal) : Rat :=
  let v := pyOrList (priceKeys.map (getJ va) ++ [productPrice, .jnum 0])
  (pyFloat v).getD 0

/-- The discount `or`-chain (lines 411–413). -/
def discountChain (va : Attrs) : JVal :=
  pyOrList (["discount_price", "old_price", "compare_price"].map (getJ va))

/-- `oldprice` emission (lines 414–420): only when the discount chain is
truthy, parses as a number and exceeds the resolved price. -/
def oldpriceOf (va : Attrs) (price : Rat) : Option Rat :=
  let d := discountChain va
  if isTruthy d then
    match pyFloat d with
    | some dq => if price < dq then some dq else none
    | none => none
  else none

/-- Description resolution (lines 429–433): variant chain, then the
product-level description; emitted only when truthy. -/
def descOf (va : Attrs) (commonDesc : JVal) : Option String :=
  let v := pyOrList [getJ va "description", getJ va "desc", commonDesc]
  if isTruthy v then some (safeText v) else none

/-- Barcode resolution (lines 436–438). -/
def barcodeOf (va : Attrs) : Option String :=
  let v := pyOrList [getJ va "barcode", getJ va "ean"]
  if isTruthy v then some (safeText v) else none

/-- Purchase-price resolution (lines 445–453): emitted when the chain value
`is not None` and converts to a number. -/
def purchaseOf (va : Attrs) : Option Rat :=
  match pyOrList (["purchased_price", "cost_price", "purchase_price"].map (getJ va)) with
  | .jnull => none
  | v => pyFloat v

/-- Unit resolution (lines 456–458). -/
def unitOf (va : Attrs) : Option JVal :=
  let v := pyOrList [getJ va "unit_type", getJ va "unit"]
  if isTruthy v then some v else none

/-- Dimensions (lines 460–463): emitted when the value `is not None`. -/
def dimsOf (va : Attrs) : List (String × String) :=
  ["weight", "length", "width", "height"].filterMap (fun d =>
    match getJ va d with
    | .jnull => none
    | v => some (d, pyStrip (pyStr v)))

/-- Category resolution (lines 466–469): variant value, else product value. -/
def categoryOf (va pa : Attrs) : Option String :=
  let v := pyOrList [getJ va "category_id", getJ pa "category_id"]
  if isTruthy v then some (pyStrip (pyStr v)) else none

/-- Colour synonym keys of `extract_color_and_size` (line 189). -/
def colorFieldsL : List String := ["color", "colour", "колір", "цвет",
  "Color", "COLOUR"]

/-- Size synonym keys of `extract_color_and_size` (line 190). -/
def sizeFieldsL : List String := ["size", "розмір", "размер", "Size", "SIZE"]

/-- First direct attribute among `fields` with a truthy value (the
break-on-first-match loops of lines 193–201). -/
def directFirst (fields : List String) (attr : Attrs) : Option JVal :=
  fields.findSome? (fun f =>
    let v := getJ attr f
    if isTruthy v then some v else none)

/-- `str(cf.get('name', '') or cf.get('uuid', '')).lower()` (line 208,
identical expression at line 480). -/
def cfName (fs : Attrs) : String :=
  pyLower (pyStr (pyOr (getD fs "name" (.jstr "")) (getD fs "uuid" (.jstr ""))))

/-- `any(f.lower() in fieldName for f in fields)`. -/
def nameMatches (fields : List String) (fieldName : String) : Bool :=
  fields.any (fun f => isSubstr (pyLower f) fieldName)

/-- One iteration of the custom-field scan (lines 206–214): a later match
overwrites an earlier value, and a name matching both synonym sets counts
as colour. -/
def scanStep (acc : Option JVal × Option JVal) (cf : JVal) :
    Option JVal × Option JVal :=
  match cf with
  | .jobj fs =>
    let fname := cfName fs
    let fval := getJ fs "value"
    if isTruthy fval && nameMatches colorFieldsL fname then (some fval, acc.2)
    else if isTruthy fval && nameMatches sizeFieldsL fname then (acc.1, some fval)
    else acc
  | _ => acc

/-- The full custom-field scan. -/
def scanCustom (cfs : List JVal) (acc : Option JVal × Option JVal) :
    Option JVal × Option JVal :=
  cfs.foldl scanStep acc

/-- The product-level fallback of lines 217–227: applies only when nothing
was found yet and the product record was passed and is truthy. -/
def prodFallback (c1 : Option JVal) (fields : List String)
    (paT : Option Attrs) : Option JVal :=
  match c1, paT with
  | none, some l => directFirst fields l
  | c1, _ => c1

/-- `extract_color_and_size(var_attr, prod_attr)` (lines 180–229): direct
attributes, then the unconditional custom-field scan, then product-level
fallback (only when `prod_attr` is passed and truthy). -/
def extractColorSize (va : Attrs) (pa : Option Attrs) :
    Option JVal × Option JVal :=
  let c0 := directFirst colorFieldsL va
  let s0 := directFirst sizeFieldsL va
  let cs :=
    match getJ va "custom_fields" with
    | .jarr cfs => scanCustom cfs (c0, s0)
    | _ => (c0, s0)
  let paTruthy : Option Attrs :=
    match pa with
    | some l => if l.isEmpty then none else some l
    | none => none
  (prodFallback cs.1 colorFieldsL paTruthy, prodFallback cs.2 sizeFieldsL paTruthy)

/-- `add_color_size_params` (lines 231–243): dedicated `Колір`/`Розмір`
parameters (values produced by the extractor are always truthy). -/
def colorSizeParams (c s : Option JVal) : List (String × String) :=
  (match c with
   | some v => if isTruthy v then [("Колір", safeText v)] else []
   | none => []) ++
  (match s with
   | some v => if isTruthy v then [("Розмір", safeText v)] else []
   | none => [])

/-- The colour suppression list of the generic-parameter loop (line 483). -/
def genColorL : List String := ["color", "colour", "колір", "цвет"]

/-- The size suppression list of the generic-parameter loop (line 484). -/
def genSizeL : List String := ["size", "розмір", "размер"]

/-- Generic custom-field parameters (lines 476–487): dict entries with a
truthy `uuid` and `value`, skipping names matching a colour or size
synonym. -/
def genericParams (va : Attrs) : List (String × String) :=
  match getJ va "custom_fields" with
  | .jarr cfs =>
    cfs.filterMap (fun cf =>
      match cf with
      | .jobj fs =>
        if isTruthy (getJ fs "uuid") && isTruthy (getJ fs "value") then
          let fname := cfName fs
          if nameMatches genColorL fname then none
          else if nameMatches genSizeL fname then none
          else some (pyStr (getD fs "name" (getJ fs "uuid")),
                     safeText (getJ fs "value"))
        else none
      | _ => none)
  | _ => []

/-- Picture emission (lines 489–497 and 336–339): the resolved value is
iterated only when it is a list; falsy entries are skipped; the text is
`safe_text` of the entry.  No deduplication is performed. -/
def picsRender : JVal → List String
  | .jarr xs => (xs.filter isTruthy).map safeText
  | _ => []

/-- The variant-path picture `or`-chain (lines 490–492). -/
def picsOf (va : Attrs) (commonPics : JVal) : List String :=
  picsRender (pyOrList [getJ va "pictures", getJ va "images", commonPics, .jarr []])

/-- One offer of the output feed: the `offer` element's attributes and the
content of its child elements, in the order the code emits them. -/
structure Offer where
  id : String
  available : Bool
  price : Rat
  priceText : String
  oldprice : Option Rat
  stock : Int
  name : JVal
  desc : Option String
  barcode : Option String
  currency : JVal
  purchase : Option Rat
  unitVal : Option JVal
  dims : List (String × String)
  categoryId : Option String
  params : List (String × String)
  pictures : List String
deriving Inhabited

/-- Product-level context computed once per product (lines 294–300) and
shared by all of its variant offers. -/
structure VCtx where
  pa : Attrs
  productName : JVal
  commonDesc : JVal
  commonPics : JVal
  productPrice : JVal

/-- Lines 294–300 of `main.py`. -/
def mkVCtx (pa : Attrs) (pid : JVal) : VCtx :=
  { pa := pa
    productName := getD pa "name" (.jstr ("Product " ++ pyStr pid))
    commonDesc := pyOrList [getD pa "description" (.jstr ""), getD pa "desc" (.jstr "")]
    commonPics := pyOrList [getD pa "pictures" (.jarr []), getD pa "images" (.jarr [])]
    productPrice := pyOrList [getD pa "price" (.jnum 0), getD pa "selling_price" (.jnum 0)] }

/-- The per-variant body of the offer loop (lines 344–499): `none` when the
SKU chain is falsy (the variant is skipped), otherwise the assembled offer. -/
def buildVariantOffer (ctx : VCtx) (va : Attrs) : Option Offer :=
  let sku := chainGet va skuKeys
  if isTruthy sku then
    let stock := resolvedStock va
    let price := resolvedPrice va ctx.productPrice
    let cs := extractColorSize va (some ctx.pa)
    some
      { id := pyStr sku
        available := decide (0 < stock)
        price := price
        priceText := fmt2 price
        oldprice := oldpriceOf va price
        stock := stock
        name := pyOrList [getJ va "name", ctx.productName]
        desc := descOf va ctx.commonDesc
        barcode := barcodeOf va
        currency := getD va "currency_code" (.jstr "UAH")
        purchase := purchaseOf va
        unitVal := unitOf va
        dims := dimsOf va
        categoryId := categoryOf va ctx.pa
        params := colorSizeParams cs.1 cs.2 ++ genericParams va
        pictures := picsOf va ctx.commonPics }
  else none

/-- The no-variant synthetic offer (lines 305–342): built straight from the
product record, with the product id as offer id and the strict `int(·)`
stock conversion. -/
def buildProductOffer (pa : Attrs) (pid : JVal) : Offer :=
  let productStock := pyOrList [getD pa "stock" (.jnum 0), getD pa "quantity" (.jnum 0)]
  let productPrice := pyOrList [getD pa "price" (.jnum 0), getD pa "selling_price" (.jnum 0)]
  let stock : Int :=
    match productStock with
    | .jnull => 0
    | v => (pyIntStrict v).getD 0
  let price : Rat :=
    match productPrice with
    | .jnull => 0
    | v => (pyFloat v).getD 0
  let commonDesc := pyOrList [getD pa "description" (.jstr ""), getD pa "desc" (.jstr "")]
  let commonPics := pyOrList [getD pa "pictures" (.jarr []), getD pa "images" (.jarr [])]
  let cs := extractColorSize pa none
  { id := pyStr pid
    available := decide (0 < stock)
    price := price
    priceText := fmt2 price
    oldprice := none
    stock := stock
    name := getD pa "name" (.jstr ("Product " ++ pyStr pid))
    desc := if isTruthy commonDesc then some (safeText commonDesc) else none
    barcode := none
    currency := .jstr "UAH"
    purchase := none
    unitVal := none
    dims := []
    categoryId := none
    params := colorSizeParams cs.1 cs.2
    pictures := picsRender commonPics }

/-- Record unwrapping (lines 281–289 for products, 345–354 for variants):
`attributes`, then `data.attributes`, else the record itself.  `none`
models the run-aborting exception Python raises when the selected
attribute container is not a dict. -/
def unwrapAttrs (r : JVal) : Option (Attrs × JVal) :=
  match r with
  | .jobj fs =>
    match fs.lookup "attributes" with
    | some (.jobj afs) => some (afs, getJ fs "id")
    | some _ => none
    | none =>
      match fs.lookup "data" with
      | some (.jobj ds) =>
        match ds.lookup "attributes" with
        | some (.jobj afs) => some (afs, pyOr (getJ ds "id") (getJ fs "id"))
        | some _ => none
        | none => some ([], pyOr (getJ ds "id") (getJ fs "id"))
      | some _ => some (fs, getJ fs "id")
      | none => some (fs, getJ fs "id")
  | _ => none

/-- The variant loop over one product's fetched offers: `none` models a
run-aborting exception, skipped variants contribute nothing. -/
def processVariants (ctx : VCtx) (vars : List JVal) : Option (List Offer) :=
  (vars.mapM (fun v => (unwrapAttrs v).map (fun p => buildVariantOffer ctx p.1))).map
    List.reduceOption

/-- One upstream HTTP response: a 200 with a (possibly unparseable) JSON
body, another status code, or a transport error. -/
inductive HResp where
  | ok (body : Option JVal)
  | status (code : Nat)
  | netErr

/-- Outcome of `safe_request` (lines 34–59): a returned response, a `None`
return (retries exhausted without success), or a propagating exception. -/
inductive ReqResult where
  | success (body : Option JVal)
  | exhausted
  | raised

/-- The `safe_request` attempt loop.  A 429 sleeps and retries; a 401 or
any 4xx/5xx raises `HTTPError`, which the `except RequestException` clause
catches and retries until the last attempt re-raises; a transport error
behaves the same; any other status falls through and is retried; an
exhausted loop returns `None`. -/
def safeRequestAux (f : Nat → HResp) (lastAttempt : Nat) :
    Nat → Nat → ReqResult
  | _, 0 => .exhausted
  | attempt, fuel + 1 =>
    match f attempt with
    | .ok b => .success b
    | .netErr =>
      if attempt = lastAttempt then .raised
      else safeRequestAux f lastAttempt (attempt + 1) fuel
    | .status c =>
      if c = 429 then safeRequestAux f lastAttempt (attempt + 1) fuel
      else if 400 ≤ c ∧ c ≤ 599 then
        if attempt = lastAttempt then .raised
        else safeRequestAux f lastAttempt (attempt + 1) fuel
      else safeRequestAux f lastAttempt (attempt + 1) fuel

/-- `safe_request` with its default `max_retries=3`. -/
def safeRequest (f : Nat → HResp) : ReqResult := safeRequestAux f 2 0 3

/-- Python `a >= b` on pagination values: numeric (bools count as
numbers) or string–string; anything else is a `TypeError` (`none`). -/
def pyGE (a b : JVal) : Option Bool :=
  match a, b with
  | .jnum x, .jnum y => some (decide (y ≤ x))
  | .jnum x, .jbool y => some (decide ((if y then (1 : Rat) else 0) ≤ x))
  | .jbool x, .jnum y => some (decide (y ≤ (if x then (1 : Rat) else 0)))
  | .jbool x, .jbool y => some (decide ((if y then (1 : Nat) else 0) ≤ (if x then 1 else 0)))
  | .jstr x, .jstr y => some (decide (y ≤ x))
  | _, _ => none

/-- `list.extend(items)`: lists extend element-wise, strings extend by
character; other values raise (`none`; dict keys are modelled as raising,
see the header note). -/
def pyIter : JVal → Option (List JVal)
  | .jarr xs => some xs
  | .jstr s => some (s.data.map (fun c => .jstr (String.mk [c])))
  | _ => none

/-- What one iteration of the pagination loop does at page `p`. -/
inductive PageOut where
  | stopFinished (xs : List JVal)
  | stopRaised
  | nextPage (xs : List JVal)

/-- `PageOut.isCont`: the loop proceeds to the next page. -/
def PageOut.isCont : PageOut → Bool
  | .nextPage _ => true
  | _ => false

/-- One iteration of the pagination loop shared by `fetch_products`
(lines 67–111) and `fetch_offers_for_product` (lines 122–162): a failed or
unparseable response breaks; empty/falsy `data` breaks; a falsy
`next_page` or `current_page >= last_page` (default `1`) breaks after
extending; a `TypeError` in that comparison, or a body/`meta`/`pagination`
of the wrong shape, aborts the run. -/
def pageOutcome (pages : Nat → Nat → HResp) (p : Nat) : PageOut :=
  match safeRequest (pages p) with
  | .raised => .stopRaised
  | .exhausted => .stopFinished []
  | .success none => .stopFinished []
  | .success (some payload) =>
    match payload with
    | .jobj pf =>
      let items := getD pf "data" (.jarr [])
      if ¬isTruthy items then .stopFinished []
      else
        match pyIter items with
        | none => .stopRaised
        | some xs =>
          match getD pf "meta" (.jobj []) with
          | .jobj mf =>
            match getD mf "pagination" (.jobj []) with
            | .jobj gf =>
              if ¬isTruthy (getJ gf "next_page") then .stopFinished xs
              else
                match pyGE (getJ gf "current_page") (getD gf "last_page" (.jnum 1)) with
                | none => .stopRaised
                | some true => .stopFinished xs
                | some false => .nextPage xs
            | _ => .stopRaised
          | _ => .stopRaised
    | _ => .stopRaised

/-- Result of a whole pagination loop.  `fuelOut` marks that the given
page budget was exhausted with the loop still running — the code itself
has no such cap, so `fuelOut` for every budget means the loop never
terminates. -/
inductive FetchRes where
  | finished (rs : List JVal)
  | raisedF
  | fuelOut (rs : List JVal)

/-- `FetchRes.isFuelOutB`: the budget ran out before the loop stopped. -/
def FetchRes.isFuelOutB : FetchRes → Bool
  | .fuelOut _ => true
  | _ => false

/-- The pagination loop, driven by a page budget. -/
def fetchPagedAux (pages : Nat → Nat → HResp) :
    Nat → Nat → List JVal → FetchRes
  | 0, _, acc => .fuelOut acc
  | fuel + 1, p, acc =>
    match pageOutcome pages p with
    | .stopRaised => .raisedF
    | .stopFinished xs => .finished (acc ++ xs)
    | .nextPage xs => fetchPagedAux pages fuel (p + 1) (acc ++ xs)

/-- A scripted upstream: per-page, per-attempt responses for the products
listing and for each product's offers listing. -/
structure Upstream where
  productPages : Nat → Nat → HResp
  offerPages : JVal → Nat → Nat → HResp

/-- Outcome of processing one product. -/
inductive ProcRes where
  | ok (l : List Offer)
  | raisedP
  | noFuelP

/-- Processing of one product inside the `rozetka_feed` loop
(lines 277–499): unwrap, fetch variants, then either the synthetic offer
or one offer per SKU-resolvable variant. -/
def processProduct (u : Upstream) (fuel : Nat) (prod : JVal) : ProcRes :=
  match unwrapAttrs prod with
  | none => .raisedP
  | some (pa, pid) =>
    match fetchPagedAux (u.offerPages pid) fuel 1 [] with
    | .raisedF => .raisedP
    | .fuelOut _ => .noFuelP
    | .finished vars =>
      if vars.isEmpty then .ok [buildProductOffer pa pid]
      else
        match processVariants (mkVCtx pa pid) vars with
        | some offers => .ok offers
        | none => .raisedP

/-- Sequential processing of the product list; the first exception aborts
the whole run. -/
def processAll (u : Upstream) (fuel : Nat) : List JVal → ProcRes
  | [] => .ok []
  | p :: rest =>
    match processProduct u fuel p with
    | .ok l =>
      match processAll u fuel rest with
      | .ok l' => .ok (l ++ l')
      | r => r
    | r => r

/-- What the `rozetka_feed` view returns: the XML document (as its offer
sequence), a 404 for an empty catalog, or the 500 produced by the
top-level `except` (lines 509–511). -/
inductive RunResult where
  | xmlDoc (offers : List Offer)
  | notFound
  | serverError
  | noFuel

/-- The whole `rozetka_feed` run against a scripted upstream. -/
def rozetkaFeed (u : Upstream) (fuel : Nat) : RunResult :=
  match fetchPagedAux u.productPages fuel 1 [] with
  | .raisedF => .serverError
  | .fuelOut _ => .noFuel
  | .finished prods =>
    if prods.isEmpty then .notFound
    else
      match processAll u fuel prods with
      | .ok offers => .xmlDoc offers
      | .raisedP => .serverError
      | .noFuelP => .noFuel

/-! ### Basic facts about the string and chain primitives -/

theorem digitChar_isDigit {d : Nat} (h : d < 10) :
    (Nat.digitChar d).isDigit = true := by
  interval_cases d <;> decide

theorem digitChar_beq_dot {d : Nat} (h : d < 10) :
    (Nat.digitChar d == '.') = false := by
  interval_cases d <;> decide

theorem natDigitsAux_shape : ∀ (f n : Nat) (acc : List Char),
    ∃ pre, natDigitsAux f n acc = pre ++ acc ∧ ∀ c ∈ pre, c.isDigit = true := by
  intro f
  induction f with
  | zero => exact fun n acc => ⟨[], rfl, by simp⟩
  | succ f ih =>
    intro n acc
    match n with
    | 0 => exact ⟨[], rfl, by simp⟩
    | n + 1 =>
      obtain ⟨pre, hpre, hdig⟩ := ih ((n + 1) / 10) (Nat.digitChar ((n + 1) % 10) :: acc)
      refine ⟨pre ++ [Nat.digitChar ((n + 1) % 10)], ?_, ?_⟩
      · show natDigitsAux f ((n + 1) / 10) (Nat.digitChar ((n + 1) % 10) :: acc) = _
        rw [hpre]
        simp
      · intro c hc
        rcases List.mem_append.1 hc with h | h
        · exact hdig c h
        · have : c = Nat.digitChar ((n + 1) % 10) := by simpa using h
          subst this
          exact digitChar_isDigit (Nat.mod_lt _ (by omega))

theorem natDigitsList_ne_nil (n : Nat) : natDigitsList n ≠ [] := by
  unfold natDigitsList
  split
  · simp
  · rename_i hn
    match n, hn with
    | n + 1, _ =>
      show natDigitsAux (n + 2) (n + 1) [] ≠ []
      obtain ⟨pre, hpre, -⟩ :=
        natDigitsAux_shape (n + 1) ((n + 1) / 10) (Nat.digitChar ((n + 1) % 10) :: [])
      show natDigitsAux (n + 1) ((n + 1) / 10) (Nat.digitChar ((n + 1) % 10) :: []) ≠ []
      rw [hpre]
      simp

theorem string_mk_ne_empty {l : List Char} (h : l ≠ []) : (⟨l⟩ : String) ≠ "" := by
  intro he
  apply h
  have hd : (⟨l⟩ : String).data = ("" : String).data := by rw [he]
  simpa using hd

theorem pyStr_ne_empty {v : JVal} (h : isTruthy v = true) : pyStr v ≠ "" := by
  cases v with
  | jnull => simp [isTruthy] at h
  | jbool b =>
    cases b
    · simp [isTruthy] at h
    · decide
  | jnum q =>
    apply string_mk_ne_empty
    intro he
    rcases List.append_eq_nil.1 (List.append_eq_nil.1 he).1 with ⟨-, hmid⟩
    exact natDigitsList_ne_nil _ hmid
  | jstr s => simpa [isTruthy, pyStr] using h
  | jarr xs => simp [pyStr]
  | jobj fs => simp [pyStr]

theorem twoDecimalFmt_fmt2 (q : Rat) : twoDecimalFmt (fmt2 q) = true := by
  unfold fmt2 twoDecimalFmt
  have h2 : (roundHalfEven (q * 100)).natAbs % 10 < 10 := Nat.mod_lt _ (by omega)
  have h1 : (roundHalfEven (q * 100)).natAbs / 10 % 10 < 10 := Nat.mod_lt _ (by omega)
  simp only [List.reverse_append, List.reverse_cons, List.reverse_nil,
    List.nil_append, List.cons_append, List.append_assoc]
  simp [digitChar_isDigit h1, digitChar_isDigit h2]

theorem pyOrList_cons_ne_nil {v : JVal} {l : List JVal} (h : l ≠ []) :
    pyOrList (v :: l) = if isTruthy v then v else pyOrList l := by
  match l, h with
  | w :: t, _ => rfl

theorem pyOrList_falsy_front :
    ∀ (l₁ l₂ : List JVal), (∀ v ∈ l₁, isTruthy v = false) → l₂ ≠ [] →
      pyOrList (l₁ ++ l₂) = pyOrList l₂ := by
  intro l₁
  induction l₁ with
  | nil => simp
  | cons v t ih =>
    intro l₂ hf hne
    have hta : t ++ l₂ ≠ [] := fun hc => hne (List.append_eq_nil.1 hc).2
    rw [List.cons_append, pyOrList_cons_ne_nil hta,
      if_neg (by simp [hf v (by simp)]), ih l₂ (fun w hw => hf w (by simp [hw])) hne]

theorem pyOrList_first_truthy :
    ∀ (pre : List JVal) (v : JVal) (post : List JVal),
      (∀ w ∈ pre, isTruthy w = false) → isTruthy v = true →
      pyOrList (pre ++ v :: post) = v := by
  intro pre
  induction pre with
  | nil =>
    intro v post _ hv
    cases post with
    | nil => rfl
    | cons w t => simp [pyOrList, hv]
  | cons w t ih =>
    intro v post hf hv
    rw [List.cons_append, pyOrList_cons_ne_nil (by simp),
      if_neg (by simp [hf w (by simp)])]
    exact ih v post (fun x hx => hf x (by simp [hx])) hv

theorem pyOrList_all_falsy :
    ∀ (l : List JVal), (∀ v ∈ l, isTruthy v = false) →
      isTruthy (pyOrList l) = false := by
  intro l
  induction l with
  | nil => decide
  | cons v t ih =>
    intro hf
    cases t with
    | nil => exact hf v (by simp)
    | cons w r =>
      rw [pyOrList_cons_ne_nil (by simp), if_neg (by simp [hf v (by simp)])]
      exact ih (fun x hx => hf x (by simp [hx]))

theorem getJ_setF_self (fs : Attrs) (k : String) (v : JVal) :
    getJ (setF fs k v) k = v := by
  simp [getJ, setF, List.lookup]

theorem lookup_removeF_ne :
    ∀ (fs : Attrs) (k k' : String), k' ≠ k →
      (removeF fs k).lookup k' = fs.lookup k' := by
  intro fs k k' hne
  induction fs with
  | nil => rfl
  | cons p t ih =>
    cases p with
    | mk a b =>
      by_cases hp : a = k
      · have h1 : removeF ((a, b) :: t) k = removeF t k := by
          simp [removeF, List.filter_cons, hp]
        have h2 : (k' == a) = false := by
          simp [hp]
          exact hne
        rw [h1, ih]
        simp only [List.lookup, h2]
      · have h1 : removeF ((a, b) :: t) k = (a, b) :: removeF t k := by
          simp [removeF, List.filter_cons, hp]
        rw [h1]
        simp only [List.lookup]
        cases hab : (k' == a) with
        | true => rfl
        | false => exact ih

theorem getJ_setF_ne (fs : Attrs) (k k' : String) (v : JVal) (hne : k' ≠ k) :
    getJ (setF fs k v) k' = getJ fs k' := by
  have hk : (k' == k) = false := by simpa using hne
  show (List.lookup k' ((k, v) :: removeF fs k)).getD .jnull = _
  simp only [List.lookup, hk]
  show getJ (removeF fs k) k' = _
  rw [getJ, lookup_removeF_ne fs k k' hne, getJ]

theorem lookup_removeF_self (fs : Attrs) (k : String) :
    (removeF fs k).lookup k = none := by
  induction fs with
  | nil => rfl
  | cons p t ih =>
    cases p with
    | mk a b =>
      by_cases hp : a = k
      · simpa [removeF, List.filter_cons, hp] using ih
      · have h1 : removeF ((a, b) :: t) k = (a, b) :: removeF t k := by
          simp [removeF, List.filter_cons, hp]
        have h2 : (k == a) = false := by
          simp
          exact fun h => hp h.symm
        rw [h1]
        simp only [List.lookup, h2]
        exact ih

theorem getJ_removeF_self (fs : Attrs) (k : String) :
    getJ (removeF fs k) k = .jnull := by
  simp [getJ, lookup_removeF_self]

theorem getJ_removeF_ne (fs : Attrs) (k k' : String) (hne : k' ≠ k) :
    getJ (removeF fs k) k' = getJ fs k' := by
  simp [getJ, lookup_removeF_ne fs k k' hne]

/-- A present-but-falsy field is invisible to every candidate-key chain:
the first-truthy resolution over a record with `k ↦ v` (`v` falsy) equals
the resolution over the record with `k` removed. -/
theorem firstTruthyChain_setF_falsy
    (keys : List String) (va : Attrs) (k : String) (v : JVal)
    (hv : isTruthy v = false) :
    firstTruthyChain keys (setF va k v) = firstTruthyChain keys (removeF va k) := by
  induction keys with
  | nil => rfl
  | cons k' t ih =>
    unfold firstTruthyChain at *
    simp only [List.map_cons]
    by_cases hk : k' = k
    · subst hk
      rw [List.find?_cons_of_neg _ (by simp [getJ_setF_self, hv]),
        List.find?_cons_of_neg _ (by simp [getJ_removeF_self, isTruthy]), ih]
    · rw [getJ_setF_ne va k k' v hk, getJ_removeF_ne va k k' hk]
      cases ht : isTruthy (getJ va k') with
      | true =>
        rw [List.find?_cons_of_pos _ ht, List.find?_cons_of_pos _ ht]
      | false =>
        rw [List.find?_cons_of_neg _ (by simp [ht]),
          List.find?_cons_of_neg _ (by simp [ht]), ih]

theorem directFirst_truthy :
    ∀ (fields : List String) (attr : Attrs) (c : JVal),
      directFirst fields attr = some c → isTruthy c = true := by
  intro fields
  induction fields with
  | nil => intro attr c h; cases h
  | cons f t ih =>
    intro attr c h
    rw [directFirst, List.findSome?_cons] at h
    by_cases hf : isTruthy (getJ attr f) = true
    · simp [hf] at h
      rw [← h]
      exact hf
    · simp [Bool.eq_false_iff.2 hf] at h
      exact ih attr c h

theorem scanStep_fst_truthy
    (acc : Option JVal × Option JVal) (cf : JVal)
    (hacc : ∀ x, acc.1 = some x → isTruthy x = true) :
    ∀ x, (scanStep acc cf).1 = some x → isTruthy x = true := by
  intro x hx
  cases cf with
  | jobj fs =>
    simp only [scanStep] at hx
    split at hx
    · rename_i hcond
      simp at hx
      rw [← hx]
      have hc := hcond
      rw [Bool.and_eq_true] at hc
      exact hc.1
    · split at hx
      · exact hacc x hx
      · exact hacc x hx
  | jnull => exact hacc x hx
  | jbool b => exact hacc x hx
  | jnum q => exact hacc x hx
  | jstr s => exact hacc x hx
  | jarr xs => exact hacc x hx

theorem scanStep_snd_truthy
    (acc : Option JVal × Option JVal) (cf : JVal)
    (hacc : ∀ x, acc.2 = some x → isTruthy x = true) :
    ∀ x, (scanStep acc cf).2 = some x → isTruthy x = true := by
  intro x hx
  cases cf with
  | jobj fs =>
    simp only [scanStep] at hx
    split at hx
    · exact hacc x hx
    · split at hx
      · rename_i hcond
        simp at hx
        rw [← hx]
        have hc := hcond
        rw [Bool.and_eq_true] at hc
        exact hc.1
      · exact hacc x hx
  | jnull => exact hacc x hx
  | jbool b => exact hacc x hx
  | jnum q => exact hacc x hx
  | jstr s => exact hacc x hx
  | jarr xs => exact hacc x hx

theorem scanCustom_truthy :
    ∀ (cfs : List JVal) (acc : Option JVal × Option JVal),
      (∀ x, acc.1 = some x → isTruthy x = true) →
      (∀ x, acc.2 = some x → isTruthy x = true) →
      (∀ x, (scanCustom cfs acc).1 = some x → isTruthy x = true) ∧
      (∀ x, (scanCustom cfs acc).2 = some x → isTruthy x = true) := by
  intro cfs
  induction cfs with
  | nil => exact fun acc h1 h2 => ⟨h1, h2⟩
  | cons cf t ih =>
    intro acc h1 h2
    exact ih (scanStep acc cf) (scanStep_fst_truthy acc cf h1)
      (scanStep_snd_truthy acc cf h2)

theorem prodFallback_truthy
    (c1 : Option JVal) (fields : List String) (paT : Option Attrs)
    (h1 : ∀ x, c1 = some x → isTruthy x = true) :
    ∀ x, prodFallback c1 fields paT = some x → isTruthy x = true := by
  intro x hx
  unfold prodFallback at hx
  cases c1 with
  | some y =>
    cases paT with
    | none => exact h1 x hx
    | some l => exact h1 x hx
  | none =>
    cases paT with
    | none => cases hx
    | some l => exact directFirst_truthy fields l x hx

/-- Every colour/size value the extractor returns is truthy. -/
theorem extractColorSize_truthy (va : Attrs) (pa : Option Attrs) :
    (∀ x, (extractColorSize va pa).1 = some x → isTruthy x = true) ∧
    (∀ x, (extractColorSize va pa).2 = some x → isTruthy x = true) := by
  unfold extractColorSize
  have hc0 := directFirst_truthy colorFieldsL va
  have hs0 := directFirst_truthy sizeFieldsL va
  cases hcf : getJ va "custom_fields" with
  | jarr cfs =>
    obtain ⟨h1, h2⟩ := scanCustom_truthy cfs
      (directFirst colorFieldsL va, directFirst sizeFieldsL va) hc0 hs0
    exact ⟨prodFallback_truthy _ _ _ h1, prodFallback_truthy _ _ _ h2⟩
  | jnull => exact ⟨prodFallback_truthy _ _ _ hc0, prodFallback_truthy _ _ _ hs0⟩
  | jbool b => exact ⟨prodFallback_truthy _ _ _ hc0, prodFallback_truthy _ _ _ hs0⟩
  | jnum q => exact ⟨prodFallback_truthy _ _ _ hc0, prodFallback_truthy _ _ _ hs0⟩
  | jstr s => exact ⟨prodFallback_truthy _ _ _ hc0, prodFallback_truthy _ _ _ hs0⟩
  | jobj fs => exact ⟨prodFallback_truthy _ _ _ hc0, prodFallback_truthy _ _ _ hs0⟩

theorem pyOr_pos {a : JVal} (b : JVal) (h : isTruthy a = true) : pyOr a b = a := by
  unfold pyOr
  rw [if_pos h]

theorem pyOr_neg {a : JVal} (b : JVal) (h : isTruthy a = false) : pyOr a b = b := by
  unfold pyOr
  rw [h]
  rfl

/-- If a custom field's generic parameter name would be `Колір`, the
suppression key `field_name` of lines 480–484 is `колір`. -/
theorem cfName_kolir (fs : Attrs) (hu : isTruthy (getJ fs "uuid") = true)
    (hn : pyStr (getD fs "name" (getJ fs "uuid")) = "Колір") :
    cfName fs = "колір" := by
  unfold cfName
  cases hl : fs.lookup "name" with
  | some v =>
    have hgd : getD fs "name" (getJ fs "uuid") = v := by simp [getD, hl]
    have hgd2 : getD fs "name" (.jstr "") = v := by simp [getD, hl]
    rw [hgd] at hn
    rw [hgd2]
    cases htv : isTruthy v with
    | true =>
      rw [pyOr_pos _ htv, hn]
      decide
    | false =>
      exfalso
      cases v with
      | jnull => exact absurd hn (by decide)
      | jbool b =>
        cases b
        · exact absurd hn (by decide)
        · simp [isTruthy] at htv
      | jnum q =>
        have hq : q = 0 := by simpa [isTruthy] using htv
        subst hq
        exact absurd hn (by decide)
      | jstr s =>
        have hs : s = "" := by simpa [isTruthy] using htv
        subst hs
        exact absurd hn (by decide)
      | jarr xs =>
        rw [show pyStr (.jarr xs) = "[...]" from rfl] at hn
        exact absurd hn (by decide)
      | jobj gs =>
        rw [show pyStr (.jobj gs) = "\x7b...\x7d" from rfl] at hn
        exact absurd hn (by decide)
  | none =>
    have hgd : getD fs "name" (getJ fs "uuid") = getJ fs "uuid" := by
      simp [getD, getJ, hl]
    have hgd2 : getD fs "name" (.jstr "") = .jstr "" := by simp [getD, hl]
    rw [hgd] at hn
    rw [hgd2]
    cases hlu : fs.lookup "uuid" with
    | none =>
      exfalso
      have hjn : getJ fs "uuid" = .jnull := by simp [getJ, hlu]
      rw [hjn] at hu
      simp [isTruthy] at hu
    | some u =>
      have h1 : getJ fs "uuid" = u := by simp [getJ, hlu]
      have h2 : getD fs "uuid" (.jstr "") = u := by simp [getD, hlu]
      rw [h1] at hn
      rw [pyOr_neg _ (by decide), h2, hn]
      decide

/-- No generic custom-field parameter is named `Колір`: a field whose
parameter name would be `Колір` always trips the colour-synonym
suppression check. -/
theorem genericParams_fst_ne_kolir (va : Attrs) :
    ∀ p ∈ genericParams va, p.1 ≠ "Колір" := by
  intro p hp
  unfold genericParams at hp
  split at hp
  · rename_i cfs heq
    obtain ⟨cf, hmem, hsome⟩ := List.mem_filterMap.1 hp
    cases cf with
    | jobj fs =>
      simp only at hsome
      split at hsome
      · rename_i huv
        split at hsome
        · cases hsome
        · split at hsome
          · cases hsome
          · rename_i hcolF hsizF
            cases hsome
            intro hk
            have huuid : isTruthy (getJ fs "uuid") = true := by
              rw [Bool.and_eq_true] at huv
              exact huv.1
            have hkol : cfName fs = "колір" := cfName_kolir fs huuid hk
            rw [hkol] at hcolF
            exact absurd (by decide : nameMatches genColorL "колір" = true)
              (by simp [hcolF])
      · cases hsome
    | jnull => cases hsome
    | jbool b => cases hsome
    | jnum q => cases hsome
    | jstr s => cases hsome
    | jarr xs => cases hsome
  · simp at hp

theorem optionMapIsSome {α β : Type} (f : α → β) (x : Option α) :
    (x.map f).isSome = x.isSome := by
  cases x <;> rfl

/-! ### Claim theorems -/

/-- C1 (amended): in both offer paths `available` is `"true"` exactly when
the resolved stock is positive; the stock is an integer, but it is not
clamped to be non-negative (see the counterexample). -/
theorem c1_available_iff_stock_pos (ctx : VCtx) (va pa : Attrs) (pid : JVal) :
    (∀ o, buildVariantOffer ctx va = some o → (o.available = true ↔ 0 < o.stock))
    ∧ ((buildProductOffer pa pid).available = true ↔
        0 < (buildProductOffer pa pid).stock) := by
  constructor
  · intro o h
    simp only [buildVariantOffer] at h
    split at h
    · injection h with h2
      subst h2
      show decide (0 < resolvedStock va) = true ↔ 0 < resolvedStock va
      simp
    · cases h
  · simp only [buildProductOffer]
    simp

def c1ctxW : VCtx := mkVCtx [] (.jnum 1)

def c1vaW : Attrs := [("sku", .jstr "A"), ("stock", .jnum 2)]

def c1offW : Offer := (buildVariantOffer c1ctxW c1vaW).getD default

/-- C1 witness: the amended theorem applied to a concrete variant. -/
theorem c1_available_iff_stock_pos_witness :
    c1offW.available = true ↔ 0 < c1offW.stock :=
  (c1_available_iff_stock_pos c1ctxW c1vaW [] (.jnum 1)).1 c1offW rfl

/-- C1 counterexample: a variant with upstream `stock = -3` is emitted with
stock `-3`, refuting `stock ≥ 0`. -/
theorem c1_counterexample :
    (buildVariantOffer (mkVCtx [] (.jnum 1))
        [("sku", .jstr "A"), ("stock", .jnum (-3))]).map Offer.stock = some (-3)
    ∧ (-3 : Int) < 0 := ⟨rfl, by decide⟩

theorem mapM_unwrap_isSome (ctx : VCtx) :
    ∀ (vs : List JVal), (∀ v ∈ vs, (unwrapAttrs v).isSome = true) →
      (vs.mapM (fun v =>
        (unwrapAttrs v).map (fun p => buildVariantOffer ctx p.1))).isSome = true := by
  intro vs
  induction vs with
  | nil => intro _; rfl
  | cons v t ih =>
    intro hall
    rw [List.mapM_cons]
    obtain ⟨pv, hpv⟩ := Option.isSome_iff_exists.1 (hall v (by simp))
    obtain ⟨l, hl⟩ :=
      Option.isSome_iff_exists.1 (ih (fun w hw => hall w (by simp [hw])))
    rw [hpv, hl]
    rfl

theorem processVariants_isSome (ctx : VCtx) (vs : List JVal)
    (h : ∀ v ∈ vs, (unwrapAttrs v).isSome = true) :
    (processVariants ctx vs).isSome = true := by
  unfold processVariants
  rw [optionMapIsSome]
  exact mapM_unwrap_isSome ctx vs h

/-- C2 (amended): every variant-built offer has a non-empty id; a variant
whose SKU chain resolves falsy is skipped (contributing no offer) without
aborting; processing a list of well-shaped variants never raises.  The
synthetic product offer's id is `str(product_id)`, which the code does not
check — see the counterexample. -/
theorem c2_variant_ids (ctx : VCtx) (va : Attrs) (vs : List JVal) :
    (∀ o, buildVariantOffer ctx va = some o → o.id ≠ "")
    ∧ (isTruthy (chainGet va skuKeys) = false → buildVariantOffer ctx va = none)
    ∧ ((∀ v ∈ vs, (unwrapAttrs v).isSome = true) →
        (processVariants ctx vs).isSome = true) := by
  refine ⟨?_, ?_, processVariants_isSome ctx vs⟩
  · intro o h
    simp only [buildVariantOffer] at h
    split at h
    · rename_i htr
      injection h with h2
      subst h2
      show pyStr (chainGet va skuKeys) ≠ ""
      exact pyStr_ne_empty htr
    · cases h
  · intro hf
    simp only [buildVariantOffer, hf]
    rfl

def c2ctxW : VCtx := mkVCtx [] (.jnum 2)

def c2vaGood : Attrs := [("sku", .jstr "S1")]

def c2vaBad : Attrs := [("article", .jstr "")]

def c2offW : Offer := (buildVariantOffer c2ctxW c2vaGood).getD default

/-- C2 witness: the amended theorem applied to concrete variants. -/
theorem c2_variant_ids_witness :
    c2offW.id ≠ "" ∧ buildVariantOffer c2ctxW c2vaBad = none
    ∧ (processVariants c2ctxW [.jobj [("sku", .jstr "S1")]]).isSome = true :=
  ⟨(c2_variant_ids c2ctxW c2vaGood []).1 c2offW rfl,
   (c2_variant_ids c2ctxW c2vaBad []).2.1 (by decide),
   (c2_variant_ids c2ctxW c2vaGood [.jobj [("sku", .jstr "S1")]]).2.2 (by decide)⟩

def c2uEmpty : Upstream :=
  { productPages := fun _ _ => .netErr
    offerPages := fun _ _ _ => .ok (some (.jobj [("data", .jarr [])])) }

/-- C2 counterexample: a product whose id is the empty string and that has
no variants yields a synthetic offer whose id is `""`, refuting "every
offer in the output has a non-empty id". -/
theorem c2_counterexample :
    processProduct c2uEmpty 3 (.jobj [("id", .jstr "")]) =
      .ok [buildProductOffer [("id", .jstr "")] (.jstr "")]
    ∧ (buildProductOffer [("id", .jstr "")] (.jstr "")).id = "" := ⟨rfl, rfl⟩

/-- C3 (confirmed): every variant offer's price text is the resolved price
rendered by `fmt2`, always with exactly two decimal digits; `oldprice` is
emitted iff the discount chain resolves a truthy value that parses as a
number strictly greater than the resolved price.  The synthetic product
offer also renders its price with two decimals and never carries an
`oldprice` (its builder reads no discount field). -/
theorem c3_price_format_oldprice (ctx : VCtx) (va pa : Attrs) (pid : JVal) :
    (∀ o, buildVariantOffer ctx va = some o →
      o.priceText = fmt2 (resolvedPrice va ctx.productPrice)
      ∧ twoDecimalFmt o.priceText = true
      ∧ (o.oldprice.isSome = true ↔
          isTruthy (discountChain va) = true ∧
          ∃ d, pyFloat (discountChain va) = some d ∧ o.price < d))
    ∧ twoDecimalFmt (buildProductOffer pa pid).priceText = true
    ∧ (buildProductOffer pa pid).oldprice = none := by
  refine ⟨?_, ?_, rfl⟩
  · intro o h
    simp only [buildVariantOffer] at h
    split at h
    · injection h with h2
      subst h2
      refine ⟨rfl, twoDecimalFmt_fmt2 _, ?_⟩
      show (oldpriceOf va (resolvedPrice va ctx.productPrice)).isSome = true ↔
        isTruthy (discountChain va) = true ∧
        ∃ d, pyFloat (discountChain va) = some d ∧
          resolvedPrice va ctx.productPrice < d
      simp only [oldpriceOf]
      cases hd : isTruthy (discountChain va) with
      | false => simp [hd]
      | true =>
        cases hpf : pyFloat (discountChain va) with
        | none => simp [hd, hpf]
        | some dq =>
          by_cases hlt : resolvedPrice va ctx.productPrice < dq
          · simp [hd, hpf, hlt]
          · simp [hd, hpf, hlt]
    · cases h
  · exact twoDecimalFmt_fmt2 ((buildProductOffer pa pid).price)

def c3ctxW : VCtx := mkVCtx [] (.jnum 3)

def c3vaW : Attrs := [("sku", .jstr "A"), ("price", .jnum 10), ("old_price", .jnum 15)]

def c3offW : Offer := (buildVariantOffer c3ctxW c3vaW).getD default

/-- C3 witness: the theorem applied to a concrete variant carrying a
discount above its price. -/
theorem c3_price_format_oldprice_witness :
    c3offW.priceText = fmt2 (resolvedPrice c3vaW c3ctxW.productPrice)
    ∧ twoDecimalFmt c3offW.priceText = true
    ∧ (c3offW.oldprice.isSome = true ↔
        isTruthy (discountChain c3vaW) = true ∧
        ∃ d, pyFloat (discountChain c3vaW) = some d ∧ c3offW.price < d) :=
  (c3_price_format_oldprice c3ctxW c3vaW [] (.jnum 3)).1 c3offW rfl

theorem pyOrList2_falsy (a c : JVal) (ha : isTruthy a = false) :
    pyOrList [a, c] = c := by
  rw [pyOrList_cons_ne_nil (by simp), if_neg (by simp [ha])]
  rfl

theorem pyOrList3_falsy (a b c : JVal) (ha : isTruthy a = false)
    (hb : isTruthy b = false) : pyOrList [a, b, c] = c := by
  rw [pyOrList_cons_ne_nil (by simp), if_neg (by simp [ha]),
    pyOrList2_falsy b c hb]

theorem directFirst_none (fields : List String) (attr : Attrs)
    (h : ∀ f ∈ fields, isTruthy (getJ attr f) = false) :
    directFirst fields attr = none := by
  unfold directFirst
  apply List.findSome?_eq_none_iff.2
  intro f hf
  rw [if_neg (by simp [h f hf])]

/-- C4 (amended): name, description, price, category id, pictures and
colour/size fall back to product-level data when the variant does not
resolve them (resolution over the variant record equals resolution over an
empty variant record), but stock, barcode and purchase price are resolved
from the variant record alone, with no product fallback — see the
counterexample. -/
theorem c4_merge_semantics (ctx : VCtx) (va pa : Attrs) :
    ((isTruthy (getJ va "name") = false →
        pyOrList [getJ va "name", ctx.productName] = ctx.productName)
     ∧ ((∀ k ∈ (["description", "desc"] : List String),
          isTruthy (getJ va k) = false) →
        descOf va ctx.commonDesc = descOf [] ctx.commonDesc)
     ∧ ((∀ k ∈ priceKeys, isTruthy (getJ va k) = false) →
        resolvedPrice va ctx.productPrice = resolvedPrice [] ctx.productPrice)
     ∧ (isTruthy (getJ va "category_id") = false →
        categoryOf va pa = categoryOf [] pa)
     ∧ ((∀ k ∈ (["pictures", "images"] : List String),
          isTruthy (getJ va k) = false) →
        picsOf va ctx.commonPics = picsOf [] ctx.commonPics)
     ∧ ((∀ k ∈ colorFieldsL, isTruthy (getJ va k) = false) →
        (∀ k ∈ sizeFieldsL, isTruthy (getJ va k) = false) →
        getJ va "custom_fields" = .jnull →
        extractColorSize va (some pa) = extractColorSize [] (some pa)))
    ∧ (∀ o, buildVariantOffer ctx va = some o →
        o.stock = resolvedStock va ∧ o.barcode = barcodeOf va
        ∧ o.purchase = purchaseOf va) := by
  constructor
  · refine ⟨?_, ?_, ?_, ?_, ?_, ?_⟩
    · intro hn
      exact pyOrList2_falsy _ _ hn
    · intro h2
      simp only [descOf]
      rw [pyOrList3_falsy _ _ _ (h2 "description" (by simp)) (h2 "desc" (by simp)),
        pyOrList3_falsy (getJ ([] : Attrs) "description") (getJ ([] : Attrs) "desc")
          ctx.commonDesc (by decide) (by decide)]
    · intro h3
      have hl : ∀ w ∈ priceKeys.map (getJ va), isTruthy w = false := by
        intro w hw
        obtain ⟨k, hk, hkw⟩ := List.mem_map.1 hw
        rw [← hkw]
        exact h3 k hk
      have hr : ∀ w ∈ priceKeys.map (getJ ([] : Attrs)), isTruthy w = false := by
        intro w hw
        obtain ⟨k, hk, hkw⟩ := List.mem_map.1 hw
        rw [← hkw]
        rfl
      simp only [resolvedPrice]
      rw [pyOrList_falsy_front _ _ hl (by simp),
        pyOrList_falsy_front _ _ hr (by simp)]
    · intro h4
      simp only [categoryOf]
      rw [pyOrList2_falsy _ _ h4,
        pyOrList2_falsy (getJ ([] : Attrs) "category_id") (getJ pa "category_id")
          (by decide)]
    · intro h5
      simp only [picsOf]
      rw [show [getJ va "pictures", getJ va "images", ctx.commonPics, .jarr []] =
          [getJ va "pictures", getJ va "images"] ++ [ctx.commonPics, .jarr []] from rfl,
        show [getJ ([] : Attrs) "pictures", getJ ([] : Attrs) "images",
            ctx.commonPics, .jarr []] =
          [getJ ([] : Attrs) "pictures", getJ ([] : Attrs) "images"] ++
            [ctx.commonPics, .jarr []] from rfl,
        pyOrList_falsy_front _ _ (by
          intro w hw
          simp at hw
          rcases hw with hw | hw <;> rw [hw]
          · exact h5 "pictures" (by simp)
          · exact h5 "images" (by simp)) (by simp),
        pyOrList_falsy_front _ _ (by
          intro w hw
          simp at hw
          rcases hw with hw | hw <;> rw [hw] <;> rfl) (by simp)]
    · intro hc hs hcf
      simp only [extractColorSize, hcf]
      rw [directFirst_none colorFieldsL va hc, directFirst_none sizeFieldsL va hs,
        directFirst_none colorFieldsL [] (fun f _ => rfl),
        directFirst_none sizeFieldsL [] (fun f _ => rfl)]
      rfl
  · intro o h
    simp only [buildVariantOffer] at h
    split at h
    · injection h with h2
      subst h2
      exact ⟨rfl, rfl, rfl⟩
    · cases h

def c4ctxW : VCtx :=
  mkVCtx [("name", .jstr "ProdName"), ("price", .jnum 50), ("stock", .jnum 5)] (.jnum 4)

def c4vaW : Attrs := [("sku", .jstr "A")]

def c4offW : Offer := (buildVariantOffer c4ctxW c4vaW).getD default

/-- C4 witness: the amended theorem applied to a concrete variant that
resolves none of the merged fields. -/
theorem c4_merge_semantics_witness :
    pyOrList [getJ c4vaW "name", c4ctxW.productName] = c4ctxW.productName
    ∧ resolvedPrice c4vaW c4ctxW.productPrice = resolvedPrice [] c4ctxW.productPrice
    ∧ c4offW.stock = resolvedStock c4vaW :=
  ⟨(c4_merge_semantics c4ctxW c4vaW []).1.1 (by decide),
   (c4_merge_semantics c4ctxW c4vaW []).1.2.2.1 (by decide),
   ((c4_merge_semantics c4ctxW c4vaW []).2 c4offW rfl).1⟩

/-- C4 counterexample: the stock field does not merge — a product with
stock 5 and a variant resolving no stock yields an offer with stock 0, so
"each per-offer field is merged with variant-overrides-product semantics"
fails. -/
theorem c4_counterexample :
    getD [("stock", .jnum 5), ("name", .jstr "P")] "stock" (.jnum 0) = .jnum 5
    ∧ (buildVariantOffer (mkVCtx [("stock", .jnum 5), ("name", .jstr "P")] (.jnum 1))
        [("sku", .jstr "A")]).map Offer.stock = some 0 := ⟨rfl, rfl⟩

/-- C5 (amended): the candidate-key chains are first-match-wins — the
chain over `pre ++ k :: post` returns `va[k]` when `k`'s value is truthy
and every earlier candidate is falsy — but in the custom-field scan the
last matching custom field wins for each of colour and size, and the scan
runs even when a direct attribute already matched (see the
counterexample). -/
theorem c5_resolution_order :
    (∀ (pre post : List String) (k : String) (va : Attrs),
      isTruthy (getJ va k) = true →
      (∀ k' ∈ pre, isTruthy (getJ va k') = false) →
      chainGet va (pre ++ k :: post) = getJ va k)
    ∧ (∀ (cfs : List JVal) (acc : Option JVal × Option JVal) (fs : Attrs),
        isTruthy (getJ fs "value") = true →
        nameMatches colorFieldsL (cfName fs) = true →
        (scanCustom (cfs ++ [.jobj fs]) acc).1 = some (getJ fs "value"))
    ∧ (∀ (cfs : List JVal) (acc : Option JVal × Option JVal) (fs : Attrs),
        isTruthy (getJ fs "value") = true →
        nameMatches colorFieldsL (cfName fs) = false →
        nameMatches sizeFieldsL (cfName fs) = true →
        (scanCustom (cfs ++ [.jobj fs]) acc).2 = some (getJ fs "value")) := by
  refine ⟨?_, ?_, ?_⟩
  · intro pre post k va hk hpre
    unfold chainGet
    rw [List.map_append, List.map_cons]
    apply pyOrList_first_truthy
    · intro w hw
      obtain ⟨k', hk', hkw⟩ := List.mem_map.1 hw
      rw [← hkw]
      exact hpre k' hk'
    · exact hk
  · intro cfs acc fs hv hm
    unfold scanCustom
    rw [List.foldl_append, List.foldl_cons, List.foldl_nil]
    simp only [scanStep]
    rw [if_pos (by rw [hv, hm]; rfl)]
  · intro cfs acc fs hv hm hs
    unfold scanCustom
    rw [List.foldl_append, List.foldl_cons, List.foldl_nil]
    simp only [scanStep]
    rw [if_neg (by simp [hv, hm]), if_pos (by rw [hv, hs]; rfl)]

def c5va : Attrs := [("custom_fields", .jarr [
  .jobj [("name", .jstr "колір"), ("uuid", .jstr "u1"), ("value", .jstr "red")],
  .jobj [("name", .jstr "color"), ("uuid", .jstr "u2"), ("value", .jstr "blue")]])]

/-- C5 counterexample: with two colour-matching custom fields (`red` first,
`blue` second) the extractor returns `blue` — the last match, not the
first. -/
theorem c5_counterexample :
    (extractColorSize c5va none).1 = some (.jstr "blue")
    ∧ (.jstr "blue" : JVal) ≠ .jstr "red" := by
  refine ⟨rfl, ?_⟩
  intro h
  injection h with h2
  exact absurd h2 (by decide)

def c5fsW : Attrs := [("name", .jstr "колір"), ("uuid", .jstr "u9"), ("value", .jstr "green")]

def c5fsSzW : Attrs := [("name", .jstr "розмір"), ("uuid", .jstr "u8"), ("value", .jstr "XL")]

/-- C5 witness: the amended theorem applied to concrete chains and a
concrete custom-field scan. -/
theorem c5_resolution_order_witness :
    chainGet [("selling_price", .jnum 7)]
        (["price"] ++ "selling_price" :: ["sale_price"]) =
      getJ [("selling_price", .jnum 7)] "selling_price"
    ∧ (scanCustom ([] ++ [.jobj c5fsW]) (none, none)).1 = some (getJ c5fsW "value")
    ∧ (scanCustom ([] ++ [.jobj c5fsSzW]) (none, none)).2 = some (getJ c5fsSzW "value") :=
  ⟨c5_resolution_order.1 ["price"] ["sale_price"] "selling_price" _
      (by decide) (by decide),
   c5_resolution_order.2.1 [] (none, none) c5fsW (by decide) (by decide),
   c5_resolution_order.2.2 [] (none, none) c5fsSzW (by decide) (by decide) (by decide)⟩

/-- C6 (amended): picture elements are the resolved source list in order,
with falsy entries skipped and entries rendered through `safe_text` — an
order-preserving sublist of the rendered source — but duplicate URLs are
not removed (see the counterexample). -/
theorem c6_pictures_order (ctx : VCtx) (va pa : Attrs) (pid : JVal)
    (xs ys : List JVal) :
    (∀ o, buildVariantOffer ctx va = some o →
      pyOrList [getJ va "pictures", getJ va "images", ctx.commonPics, .jarr []] =
        .jarr xs →
      o.pictures = (xs.filter isTruthy).map safeText
      ∧ List.Sublist o.pictures (xs.map safeText))
    ∧ (pyOrList [getD pa "pictures" (.jarr []), getD pa "images" (.jarr [])] =
        .jarr ys →
      (buildProductOffer pa pid).pictures = (ys.filter isTruthy).map safeText
      ∧ List.Sublist (buildProductOffer pa pid).pictures (ys.map safeText)) := by
  constructor
  · intro o h hx
    simp only [buildVariantOffer] at h
    split at h
    · injection h with h2
      subst h2
      show picsOf va ctx.commonPics = _ ∧ List.Sublist (picsOf va ctx.commonPics) _
      unfold picsOf
      rw [hx]
      exact ⟨rfl, (List.filter_sublist _).map _⟩
    · cases h
  · intro hy
    have hpp : (buildProductOffer pa pid).pictures = picsRender (pyOrList
        [getD pa "pictures" (.jarr []), getD pa "images" (.jarr [])]) := rfl
    rw [hpp, hy]
    exact ⟨rfl, (List.filter_sublist _).map _⟩

def c6ctxW : VCtx := mkVCtx [] (.jnum 6)

def c6vaW : Attrs :=
  [("sku", .jstr "A"), ("pictures", .jarr [.jstr "u1", .jstr "", .jstr "u2"])]

def c6offW : Offer := (buildVariantOffer c6ctxW c6vaW).getD default

/-- C6 witness: the amended theorem applied to a concrete variant with a
falsy entry in its picture list. -/
theorem c6_pictures_order_witness :
    c6offW.pictures =
      (([.jstr "u1", .jstr "", .jstr "u2"] : List JVal).filter isTruthy).map safeText
    ∧ List.Sublist c6offW.pictures
        (([.jstr "u1", .jstr "", .jstr "u2"] : List JVal).map safeText) :=
  (c6_pictures_order c6ctxW c6vaW [] (.jnum 6)
    [.jstr "u1", .jstr "", .jstr "u2"] []).1 c6offW rfl rfl

/-- C6 counterexample: a source list with the same URL twice is emitted
twice — the picture sequence is not duplicate-free. -/
theorem c6_counterexample :
    (buildVariantOffer (mkVCtx [] (.jnum 1))
        [("sku", .jstr "A"), ("pictures", .jarr [.jstr "u", .jstr "u"])]).map
      Offer.pictures = some ["u", "u"]
    ∧ ¬ (["u", "u"] : List String).Nodup := ⟨rfl, by decide⟩

theorem colorSizeParams_some (c : JVal) (s : Option JVal)
    (h : isTruthy c = true) :
    colorSizeParams (some c) s = ("Колір", safeText c) :: colorSizeParams none s := by
  unfold colorSizeParams
  simp [h]

theorem colorSizeParams_none_countP (s : Option JVal) :
    (colorSizeParams none s).countP (fun p => p.1 == "Колір") = 0 := by
  unfold colorSizeParams
  cases s with
  | none => rfl
  | some v =>
    by_cases ht : isTruthy v = true
    · simp [ht]
    · simp [Bool.eq_false_iff.2 ht]

/-- C9 (confirmed): when the extractor resolves a colour value `c` (for
example from a custom field named `Колір`), the emitted offer carries
exactly one `Колір` parameter, holding `safe_text` of `c`, and no
colour-matching custom field survives into the generic parameter list. -/
theorem c9_color_param (ctx : VCtx) (va : Attrs) (c : JVal) :
    ∀ o, buildVariantOffer ctx va = some o →
      (extractColorSize va (some ctx.pa)).1 = some c →
      o.params.countP (fun p => p.1 == "Колір") = 1
      ∧ ("Колір", safeText c) ∈ o.params := by
  intro o h hc
  simp only [buildVariantOffer] at h
  split at h
  · injection h with h2
    subst h2
    have htc : isTruthy c = true := (extractColorSize_truthy va (some ctx.pa)).1 c hc
    have hgen0 : (genericParams va).countP (fun p => p.1 == "Колір") = 0 := by
      rw [List.countP_eq_zero]
      intro p hp
      simpa using genericParams_fst_ne_kolir va p hp
    show ((colorSizeParams (extractColorSize va (some ctx.pa)).1
          (extractColorSize va (some ctx.pa)).2 ++ genericParams va).countP
          (fun p => p.1 == "Колір") = 1)
      ∧ ("Колір", safeText c) ∈ colorSizeParams (extractColorSize va (some ctx.pa)).1
          (extractColorSize va (some ctx.pa)).2 ++ genericParams va
    rw [hc, colorSizeParams_some c _ htc]
    constructor
    · rw [List.cons_append, List.countP_cons, List.countP_append,
        colorSizeParams_none_countP, hgen0]
      simp
    · rw [List.cons_append]
      exact List.mem_cons_self _ _
  · cases h

def c9ctxW : VCtx := mkVCtx [] (.jnum 9)

def c9vaW : Attrs := [("sku", .jstr "A"), ("custom_fields", .jarr [
  .jobj [("name", .jstr "Колір"), ("uuid", .jstr "u1"), ("value", .jstr "red")]])]

def c9offW : Offer := (buildVariantOffer c9ctxW c9vaW).getD default

/-- C9 witness: a variant with no direct colour attribute and a custom
field `Колір = "red"` gets exactly one `Колір` parameter with value
`red`. -/
theorem c9_color_param_witness :
    c9offW.params.countP (fun p => p.1 == "Колір") = 1
    ∧ ("Колір", safeText (.jstr "red")) ∈ c9offW.params :=
  c9_color_param c9ctxW c9vaW (.jstr "red") c9offW rfl rfl

/-- C10 (confirmed): a present-but-falsy field behaves exactly like an
absent one in every candidate-key chain; a variant whose price candidates
all resolve falsy (e.g. a literal `0` price) is priced from the
product-level price (`0` when that too is falsy), and a variant whose
`sku` is the empty string, with the other SKU candidates falsy, is
dropped just as if `sku` were missing. -/
theorem c10_falsy_is_absent :
    (∀ (keys : List String) (va : Attrs) (k : String) (v : JVal),
      isTruthy v = false →
      firstTruthyChain keys (setF va k v) = firstTruthyChain keys (removeF va k))
    ∧ (∀ (ctx : VCtx) (va : Attrs),
        (∀ k ∈ priceKeys, isTruthy (getJ va k) = false) →
        ∀ o, buildVariantOffer ctx va = some o →
          o.price = (pyFloat (pyOrList [ctx.productPrice, .jnum 0])).getD 0)
    ∧ (∀ (ctx : VCtx) (va : Attrs), getJ va "sku" = .jstr "" →
        (∀ k ∈ (["article", "code", "vendor_code"] : List String),
          isTruthy (getJ va k) = false) →
        buildVariantOffer ctx va = none) := by
  refine ⟨fun keys va k v hv => firstTruthyChain_setF_falsy keys va k v hv, ?_, ?_⟩
  · intro ctx va h3 o h
    simp only [buildVariantOffer] at h
    split at h
    · injection h with h2
      subst h2
      show resolvedPrice va ctx.productPrice = _
      simp only [resolvedPrice]
      have hl : ∀ w ∈ priceKeys.map (getJ va), isTruthy w = false := by
        intro w hw
        obtain ⟨k, hk, hkw⟩ := List.mem_map.1 hw
        rw [← hkw]
        exact h3 k hk
      rw [pyOrList_falsy_front _ _ hl (by simp)]
    · cases h
  · intro ctx va hsku hrest
    have hfalse : isTruthy (chainGet va skuKeys) = false := by
      unfold chainGet
      apply pyOrList_all_falsy
      intro w hw
      simp [skuKeys] at hw
      rcases hw with hw | hw | hw | hw <;> rw [hw]
      · rw [hsku]
        rfl
      · exact hrest "article" (by simp)
      · exact hrest "code" (by simp)
      · exact hrest "vendor_code" (by simp)
    simp only [buildVariantOffer, hfalse]
    rfl

def c10vaPrice : Attrs := [("sku", .jstr "A"), ("price", .jnum 0)]

def c10ctxW : VCtx := mkVCtx [("price", .jnum 50)] (.jnum 10)

def c10offW : Offer := (buildVariantOffer c10ctxW c10vaPrice).getD default

def c10vaSku : Attrs := [("sku", .jstr "")]

/-- C10 witness: the theorem applied to a variant with literal price `0`
(priced from the product) and a variant with an empty-string SKU
(dropped). -/
theorem c10_falsy_is_absent_witness :
    firstTruthyChain priceKeys (setF [("price", .jnum 50)] "price" (.jnum 0)) =
      firstTruthyChain priceKeys (removeF [("price", .jnum 50)] "price")
    ∧ c10offW.price = (pyFloat (pyOrList [c10ctxW.productPrice, .jnum 0])).getD 0
    ∧ buildVariantOffer c10ctxW c10vaSku = none :=
  ⟨c10_falsy_is_absent.1 priceKeys [("price", .jnum 50)] "price" (.jnum 0) (by decide),
   c10_falsy_is_absent.2.1 c10ctxW c10vaPrice (by decide) c10offW rfl,
   c10_falsy_is_absent.2.2 c10ctxW c10vaSku rfl (by decide)⟩

theorem fetchPagedAux_succ (pages : Nat → Nat → HResp) (fuel p : Nat)
    (acc : List JVal) :
    fetchPagedAux pages (fuel + 1) p acc =
      match pageOutcome pages p with
      | .stopRaised => .raisedF
      | .stopFinished xs => .finished (acc ++ xs)
      | .nextPage xs => fetchPagedAux pages fuel (p + 1) (acc ++ xs) := rfl

def c7prodRec : Attrs :=
  [("id", .jnum 7), ("name", .jstr "P"), ("price", .jnum 10), ("stock", .jnum 2)]

def c7payload : JVal := .jobj [("data", .jarr [.jobj c7prodRec])]

def c7retry : Upstream :=
  { productPages := fun _ attempt =>
      if attempt = 0 then .status 401 else .ok (some c7payload)
    offerPages := fun _ _ _ => .ok (some (.jobj [("data", .jarr [])])) }

def c7always : Upstream :=
  { productPages := fun _ _ => .status 401
    offerPages := fun _ _ _ => .ok (some (.jobj [("data", .jarr [])])) }

/-- C7: an upstream that answers the first products request with 401 and
the retry with 200 makes the run retry past the 401 and produce a full
feed — the 401 `raise` is caught by `safe_request`'s own
`except RequestException` clause and retried, so the run does not abort
immediately.  Only a persistent 401 (exhausting all three attempts)
aborts with a 500 and no document. -/
theorem c7_401_retried_not_fatal :
    rozetkaFeed c7retry 5 = .xmlDoc [buildProductOffer c7prodRec (.jnum 7)]
    ∧ rozetkaFeed c7always 5 = .serverError := ⟨rfl, rfl⟩

/-- C8 (amended): the pagination loop stops exactly when some reachable
page's outcome is not "continue" — i.e. the request fails or exhausts its
retries, the body is unparseable or has falsy `data`, `next_page` is
falsy, or `current_page >= last_page` (default 1) holds or raises; there
is no page-count cap and no fewer-records-than-page-size check. -/
theorem c8_stop_condition_terminates (pages : Nat → Nat → HResp) :
    ∀ (fuel p : Nat) (acc : List JVal),
      (∃ q, p ≤ q ∧ q < p + fuel ∧ (pageOutcome pages q).isCont = false) →
      (fetchPagedAux pages fuel p acc).isFuelOutB = false := by
  intro fuel
  induction fuel with
  | zero =>
    intro p acc ⟨q, h1, h2, _⟩
    exact absurd h2 (by omega)
  | succ fuel ih =>
    intro p acc ⟨q, hq1, hq2, hq3⟩
    rw [fetchPagedAux_succ]
    cases hout : pageOutcome pages p with
    | stopRaised => rfl
    | stopFinished xs => rfl
    | nextPage xs =>
      have hqp : q ≠ p := by
        intro he
        rw [he, hout] at hq3
        cases hq3
      exact ih (p + 1) (acc ++ xs) ⟨q, by omega, by omega, hq3⟩

def c8stopPages : Nat → Nat → HResp :=
  fun _ _ => .ok (some (.jobj [("data", .jarr [])]))

/-- C8 witness: a page with empty `data` stops the loop within its
budget. -/
theorem c8_stop_condition_terminates_witness :
    (fetchPagedAux c8stopPages 3 1 []).isFuelOutB = false :=
  c8_stop_condition_terminates c8stopPages 3 1 [] ⟨1, by omega, by omega, rfl⟩

def advPayload : JVal := .jobj [("data", .jarr [.jnum 1]),
  ("meta", .jobj [("pagination", .jobj [("next_page", .jbool true),
    ("current_page", .jnum 1), ("last_page", .jnum 2)])])]

def advPages : Nat → Nat → HResp := fun _ _ => .ok (some advPayload)

theorem advPages_never_stops : ∀ (fuel p : Nat) (acc : List JVal),
    (fetchPagedAux advPages fuel p acc).isFuelOutB = true := by
  intro fuel
  induction fuel with
  | zero => intro p acc; rfl
  | succ fuel ih =>
    intro p acc
    rw [fetchPagedAux_succ,
      show pageOutcome advPages p = .nextPage [.jnum 1] from rfl]
    exact ih (p + 1) (acc ++ [.jnum 1])

/-- C8 counterexample: an upstream that always returns a non-empty page
with `next_page = true` and `current_page < last_page` keeps the loop
running past every page budget — there is no hard safety cap, so this
fetch loops unboundedly. -/
theorem c8_counterexample :
    ¬ ∃ n, (fetchPagedAux advPages n 1 []).isFuelOutB = false := by
  rintro ⟨n, hn⟩
  rw [advPages_never_stops n 1 []] at hn
  cases hn
